import Mathlib

/-!
Verification development for the Rubik's-cube core (cube state, rotation
engine, move queue / animation scheduler, selection resolver, affordance
generator) of the repository under review.

Modelling conventions (shallow embedding):
* Logical cubie positions are exact integer triples.  In the source they are
  held in floating point, rotated by `rotateX/rotateY/rotateZ` at angles that
  are exact multiples of `π/2` when a move commits (`cos = 0`, `sin = ±1`),
  and immediately re-snapped by `roundVector`.  On integer inputs this
  pipeline is exactly the integer quarter-turn maps `rotXq/rotYq/rotZq`
  below, so `roundVector` is the identity here and is not modelled
  separately.
* A cubie's orientation is stored in the source as an Euler triple that is
  converted to a quaternion, premultiplied by the move's quarter-turn
  quaternion (`objQuat.premultiply(rotQuat)`, i.e. `q_new = q_rot * q_old`),
  and converted back.  We model the orientation directly as the 3×3 rotation
  matrix the Euler triple represents; quaternion premultiplication is left
  matrix multiplication.
* Scheduler angles (`progress`, `ANIMATION_SPEED`, `TOTAL_ROTATION`) are
  modelled as integers in units of 10⁻¹⁶ radians, which represents the
  decimal constants `0.15` and `1.5707963267948966` exactly.
  `1.5707963267948966` is the 17-significant-digit decimal rendering of the
  source's double constant `Math.PI / 2`; it differs from the exact double
  by ≈ 4·10⁻¹⁷, and accumulated double rounding in `progress += speed` is
  below 10⁻¹⁴, while every reachable progress value keeps a distance
  ≥ 0.07 rad from the threshold — so this integer model crosses the
  threshold on exactly the same tick as the IEEE-double source.
-/

namespace Rubik

/-- Integer 3-vector: a logical cubie position / snapped normal / displacement. -/
@[ext]
structure Vec3 where
  x : ℤ
  y : ℤ
  z : ℤ
deriving DecidableEq, Repr

/-- Rational 3-vector, for quantities that are not integral (pre-snap
surface normals, cue placements). -/
@[ext]
structure QVec3 where
  x : ℚ
  y : ℚ
  z : ℚ
deriving DecidableEq, Repr

/-- The three principal axes. -/
inductive Axis where
  | x
  | y
  | z
deriving DecidableEq, Repr

/-- `rotateX(point, d·π/2)` from `utils/cubeMath.ts`, specialised to a signed
quarter turn: with `cos = 0` and `sin = d` the source's
`[x, y·cos − z·sin, y·sin + z·cos]` is `[x, −z·d, y·d]`. -/
def rotXq (d : ℤ) (p : Vec3) : Vec3 :=
  ⟨p.x, -p.z * d, p.y * d⟩

/-- `rotateY(point, d·π/2)`: `[x·cos + z·sin, y, −x·sin + z·cos]` = `[z·d, y, −x·d]`. -/
def rotYq (d : ℤ) (p : Vec3) : Vec3 :=
  ⟨p.z * d, p.y, -p.x * d⟩

/-- `rotateZ(point, d·π/2)`: `[x·cos − y·sin, x·sin + y·cos, z]` = `[−y·d, x·d, z]`. -/
def rotZq (d : ℤ) (p : Vec3) : Vec3 :=
  ⟨-p.y * d, p.x * d, p.z⟩

/-- Dispatch on the axis, as the commit branch of `useFrame` does
(`if (axis === 'x') ... rotateX ... else if ...`), followed by the
(here trivial) `roundVector`. -/
def rotatePos (a : Axis) (d : ℤ) (p : Vec3) : Vec3 :=
  match a with
  | .x => rotXq d p
  | .y => rotYq d p
  | .z => rotZq d p

/-- 3×3 matrix with integer entries; the orientation representation
(see module docstring). -/
@[ext]
structure Mat3 where
  a00 : ℤ
  a01 : ℤ
  a02 : ℤ
  a10 : ℤ
  a11 : ℤ
  a12 : ℤ
  a20 : ℤ
  a21 : ℤ
  a22 : ℤ
deriving DecidableEq, Repr

/-- Identity rotation (a freshly created cubie's `rotation: [0, 0, 0]`). -/
def Mat3.one : Mat3 :=
  ⟨1, 0, 0, 0, 1, 0, 0, 0, 1⟩

/-- Matrix product. -/
def Mat3.mul (m n : Mat3) : Mat3 :=
  ⟨m.a00 * n.a00 + m.a01 * n.a10 + m.a02 * n.a20,
   m.a00 * n.a01 + m.a01 * n.a11 + m.a02 * n.a21,
   m.a00 * n.a02 + m.a01 * n.a12 + m.a02 * n.a22,
   m.a10 * n.a00 + m.a11 * n.a10 + m.a12 * n.a20,
   m.a10 * n.a01 + m.a11 * n.a11 + m.a12 * n.a21,
   m.a10 * n.a02 + m.a11 * n.a12 + m.a12 * n.a22,
   m.a20 * n.a00 + m.a21 * n.a10 + m.a22 * n.a20,
   m.a20 * n.a01 + m.a21 * n.a11 + m.a22 * n.a21,
   m.a20 * n.a02 + m.a21 * n.a12 + m.a22 * n.a22⟩

/-- The rotation matrix of `THREE.Quaternion().setFromAxisAngle(axisVec, d·π/2)`
for a principal `axisVec`: the standard axis rotation with `cos = 0`,
`sin = d`.  Multiplying a column vector by it agrees with
`rotXq/rotYq/rotZq` (see `rotMat_mulVec`). -/
def rotMat (a : Axis) (d : ℤ) : Mat3 :=
  match a with
  | .x => ⟨1, 0, 0, 0, 0, -d, 0, d, 0⟩
  | .y => ⟨0, 0, d, 0, 1, 0, -d, 0, 0⟩
  | .z => ⟨0, -d, 0, d, 0, 0, 0, 0, 1⟩

/-- Apply a matrix to a column vector. -/
def Mat3.mulVec (m : Mat3) (p : Vec3) : Vec3 :=
  ⟨m.a00 * p.x + m.a01 * p.y + m.a02 * p.z,
   m.a10 * p.x + m.a11 * p.y + m.a12 * p.z,
   m.a20 * p.x + m.a21 * p.y + m.a22 * p.z⟩

/-- The 12-symbol move alphabet (`MoveType` in `types.ts`); `RP` is `R'` etc. -/
inductive Move where
  | R
  | RP
  | L
  | LP
  | U
  | UP
  | D
  | DP
  | F
  | FP
  | B
  | BP
deriving DecidableEq, Repr

/-- The primed counterpart of a move (adding or removing the `'`). -/
def Move.prime : Move → Move
  | .R => .RP
  | .RP => .R
  | .L => .LP
  | .LP => .L
  | .U => .UP
  | .UP => .U
  | .D => .DP
  | .DP => .D
  | .F => .FP
  | .FP => .F
  | .B => .BP
  | .BP => .B

/-- Whether the symbol carries a prime (`move.includes("'")`). -/
def Move.isPrime : Move → Bool
  | .RP | .LP | .UP | .DP | .FP | .BP => true
  | _ => false

/-- The unprimed base letter (`move.replace("'", "")` / `move[0]`). -/
def Move.base : Move → Move
  | .R | .RP => .R
  | .L | .LP => .L
  | .U | .UP => .U
  | .D | .DP => .D
  | .F | .FP => .F
  | .B | .BP => .B

/-- Axis of a move, from the `switch (move[0])` in `useFrame`:
R/L are x, U/D are y, F/B are z. -/
def moveAxis : Move → Axis
  | .R | .RP | .L | .LP => .x
  | .U | .UP | .D | .DP => .y
  | .F | .FP | .B | .BP => .z

/-- Layer of a move, from the same `switch`: R ↦ 1, L ↦ −1, U ↦ 1, D ↦ −1,
F ↦ 1, B ↦ −1 (the prime does not change the layer). -/
def moveLayer : Move → ℤ
  | .R | .RP => 1
  | .L | .LP => -1
  | .U | .UP => 1
  | .D | .DP => -1
  | .F | .FP => 1
  | .B | .BP => -1

/-- Signed direction of a move: the `switch` sets R/U/F ↦ −1 and L/D/B ↦ 1,
then `if (move.includes("'")) direction *= -1`. -/
def moveDirection : Move → ℤ
  | .R => -1
  | .RP => 1
  | .L => 1
  | .LP => -1
  | .U => -1
  | .UP => 1
  | .D => 1
  | .DP => -1
  | .F => -1
  | .FP => 1
  | .B => 1
  | .BP => -1

/-- The quarter-turn rotation a committed move premultiplies onto each active
cubie's orientation (`setFromAxisAngle(axisVec, direction * π/2)`). -/
def moveRot (m : Move) : Mat3 :=
  rotMat (moveAxis m) (moveDirection m)

/-- One cubie (`CubieData` in `types.ts`): immutable `id`, mutable logical
`position`, mutable orientation (`rotation`, see module docstring), and the
immutable `initialPosition` recorded at creation. -/
@[ext]
structure CubieData where
  id : ℕ
  position : Vec3
  rotation : Mat3
  initialPosition : Vec3
deriving DecidableEq, Repr

/-- The coordinate values swept by the generation loops (`-1..1`). -/
def coords : List ℤ :=
  [-1, 0, 1]

/-- The 27 integer triples in `{-1,0,1}³`, in the nesting order of
`generateSolvedCube`'s loops (x outermost, z innermost). -/
def allPositions : List Vec3 :=
  coords.flatMap fun x => coords.flatMap fun y => coords.map fun z => ⟨x, y, z⟩

/-- `generateSolvedCube`: 27 cubies, ids assigned in loop order, zero
orientation, `initialPosition` equal to the creation position. -/
def generateSolvedCube : List CubieData :=
  allPositions.enum.map fun ip =>
    { id := ip.1, position := ip.2, rotation := Mat3.one, initialPosition := ip.2 }

/-- Read the coordinate of a position along an axis
(`c.position[axis === 'x' ? 0 : axis === 'y' ? 1 : 2]`). -/
def axisCoord (a : Axis) (p : Vec3) : ℤ :=
  match a with
  | .x => p.x
  | .y => p.y
  | .z => p.z

/-- `getCubiesInLayer`: ids of the cubies whose current (snapped) coordinate
on `a` equals `layer`.  (`Math.round` is the identity on our exact integer
positions.) -/
def getCubiesInLayer (a : Axis) (layer : ℤ) (s : List CubieData) : List ℕ :=
  (s.filter fun c => axisCoord a c.position == layer).map (·.id)

/-- The per-cubie body of the `setCubies(prevCubies.map ...)` commit in
`useFrame`: cubies whose id is not in `activeCubieIds` are returned
unchanged; active cubies get their position rotated by the exact signed
quarter turn and re-snapped, and their orientation premultiplied by the
move's rotation. -/
def commitCubie (a : Axis) (d : ℤ) (activeIds : List ℕ) (c : CubieData) : CubieData :=
  if c.id ∈ activeIds then
    { c with
      position := rotatePos a d c.position
      rotation := (rotMat a d).mul c.rotation }
  else c

/-- The whole commit: map `commitCubie` over the cube state. -/
def commitMove (a : Axis) (d : ℤ) (activeIds : List ℕ) (s : List CubieData) : List CubieData :=
  s.map (commitCubie a d activeIds)

/-- Committing one move of the alphabet to a cube state: capture the active
set with `getCubiesInLayer` (as the scheduler does when the move starts;
positions do not change between capture and commit) and commit it. -/
def applyMove (m : Move) (s : List CubieData) : List CubieData :=
  commitMove (moveAxis m) (moveDirection m)
    (getCubiesInLayer (moveAxis m) (moveLayer m) s) s

/-- A whole sequence of committed moves, oldest first. -/
def applyMoves (ms : List Move) (s : List CubieData) : List CubieData :=
  ms.foldl (fun st m => applyMove m st) s

/-- The `currentMove.current` record of the scheduler: the move symbol, its
resolved axis/layer/direction, the elapsed angular progress, and the ids
snapshotted as active when the move began. -/
structure ActiveMove where
  mtype : Move
  axis : Axis
  layer : ℤ
  direction : ℤ
  progress : ℤ
  activeCubieIds : List ℕ
deriving DecidableEq, Repr

/-- The mutable state the `RubiksCube` component threads through its frame
callback: `cubies` (React state), the FIFO `animationQueue`, the
`currentMove` record, the `isAnimating` flag, and the selection state. -/
structure RubiksState where
  cubies : List CubieData
  animationQueue : List Move
  currentMove : Option ActiveMove
  isAnimating : Bool
  selectedCubieId : Option ℕ
  clickedFaceNormal : Option QVec3
deriving DecidableEq, Repr

/-- `ANIMATION_SPEED = 0.15` (radians per frame), in units of 10⁻¹⁶ rad
(see module docstring). -/
def ANIMATION_SPEED : ℤ :=
  1500000000000000

/-- `TOTAL_ROTATION = Math.PI / 2` (the decimal rendering of the double
constant), in units of 10⁻¹⁶ rad (see module docstring). -/
def TOTAL_ROTATION : ℤ :=
  15707963267948966

/-- Step 1 of `useFrame` (entered when not animating and the queue is
non-empty): shift the queue head, resolve it to axis/layer/direction,
snapshot the active layer, set progress to 0 and raise `isAnimating`. -/
def startMove (s : RubiksState) : RubiksState :=
  match s.animationQueue with
  | [] => s
  | m :: rest =>
    { s with
      animationQueue := rest
      currentMove := some
        { mtype := m
          axis := moveAxis m
          layer := moveLayer m
          direction := moveDirection m
          progress := 0
          activeCubieIds := getCubiesInLayer (moveAxis m) (moveLayer m) s.cubies }
      isAnimating := true }

/-- Step 2 of `useFrame` (entered when animating with a current move):
advance progress by the speed (quadrupled in burst mode when more than 5
moves remain queued); if the advanced progress reaches `TOTAL_ROTATION`,
commit the move with the exact signed quarter turn, drop the active move and
lower `isAnimating`; otherwise store the advanced progress. -/
def advanceMove (s : RubiksState) : RubiksState :=
  match s.currentMove with
  | none => s
  | some cm =>
    let speed := if 5 < s.animationQueue.length then ANIMATION_SPEED * 4 else ANIMATION_SPEED
    let progress := cm.progress + speed
    if TOTAL_ROTATION ≤ progress then
      { s with
        cubies := commitMove cm.axis cm.direction cm.activeCubieIds s.cubies
        isAnimating := false
        currentMove := none }
    else
      { s with currentMove := some { cm with progress := progress } }

/-- Guard of step 1: `if (!isAnimating.current && animationQueue.current.length > 0)`. -/
def tickStart (s : RubiksState) : RubiksState :=
  if s.isAnimating = false ∧ s.animationQueue ≠ [] then startMove s else s

/-- Guard of step 2: `if (isAnimating.current && currentMove.current)`. -/
def tickAdvance (s : RubiksState) : RubiksState :=
  if s.isAnimating = true ∧ s.currentMove.isSome then advanceMove s else s

/-- One frame of the `useFrame` callback: step 1 (dequeue) runs first and
step 2 (advance/commit) runs afterwards on the same tick. -/
def tick (s : RubiksState) : RubiksState :=
  tickAdvance (tickStart s)

/-- `resetCube`: regenerate the solved cube, clear the queue, the in-flight
move, the animating flag and the selection, unconditionally. -/
def resetCube (_s : RubiksState) : RubiksState :=
  { cubies := generateSolvedCube
    animationQueue := []
    currentMove := none
    isAnimating := false
    selectedCubieId := none
    clickedFaceNormal := none }

/-- `triggerRotate`: push one move on the queue. -/
def triggerRotate (m : Move) (s : RubiksState) : RubiksState :=
  { s with animationQueue := s.animationQueue ++ [m] }

/-- The state the component mounts with. -/
def initialState : RubiksState :=
  { cubies := generateSolvedCube
    animationQueue := []
    currentMove := none
    isAnimating := false
    selectedCubieId := none
    clickedFaceNormal := none }

/-- `Math.sign`. -/
def qsign (q : ℚ) : ℚ :=
  if 0 < q then 1 else if q < 0 then -1 else 0

/-- `Math.abs`. -/
def qabs (q : ℚ) : ℚ :=
  if q < 0 then -q else q

/-- Binary `Math.max` (the source's ternary `Math.max(a, b, c)` is the fold
`qmax (qmax a b) c`). -/
def qmax (a b : ℚ) : ℚ :=
  if a ≤ b then b else a

/-- The normal snap in `handleCubieClick`: each component whose absolute
value equals the maximum absolute component is replaced by its sign, the
others by 0.  The source first calls `.normalize()` on the raw normal;
normalisation scales by a positive factor, which changes neither the
comparisons with the maximum nor the signs, so it is dropped here (on the
zero vector, which `normalize` also fixes, the snap yields zero anyway). -/
def snapNormal (n : QVec3) : QVec3 :=
  let maxComp := qmax (qmax (qabs n.x) (qabs n.y)) (qabs n.z)
  ⟨if qabs n.x = maxComp then qsign n.x else 0,
   if qabs n.y = maxComp then qsign n.y else 0,
   if qabs n.z = maxComp then qsign n.z else 0⟩

/-- The `validFaces` list built by `handleCubieClick` from the clicked
cubie's snapped logical position: one letter per extreme coordinate, in
source push order, followed by the six dedicated center-piece checks. -/
def validFaces (p : Vec3) : List String :=
  (if p.x = 1 then ["R"] else []) ++
  (if p.x = -1 then ["L"] else []) ++
  (if p.y = 1 then ["U"] else []) ++
  (if p.y = -1 then ["D"] else []) ++
  (if p.z = 1 then ["F"] else []) ++
  (if p.z = -1 then ["B"] else []) ++
  (if p.x = 0 ∧ p.y = 0 ∧ p.z = 1 then ["F"] else []) ++
  (if p.x = 0 ∧ p.y = 0 ∧ p.z = -1 then ["B"] else []) ++
  (if p.x = 1 ∧ p.y = 0 ∧ p.z = 0 then ["R"] else []) ++
  (if p.x = -1 ∧ p.y = 0 ∧ p.z = 0 then ["L"] else []) ++
  (if p.x = 0 ∧ p.y = 1 ∧ p.z = 0 then ["U"] else []) ++
  (if p.x = 0 ∧ p.y = -1 ∧ p.z = 0 then ["D"] else [])

/-- Componentwise difference (`subVectors`). -/
instance : Sub Vec3 :=
  ⟨fun a b => ⟨a.x - b.x, a.y - b.y, a.z - b.z⟩⟩

/-- Dot product. -/
def Vec3.dot (a b : Vec3) : ℤ :=
  a.x * b.x + a.y * b.y + a.z * b.z

/-- Squared length (`lengthSq`). -/
def Vec3.normSq (a : Vec3) : ℤ :=
  a.dot a

/-- Cross product. -/
def Vec3.cross (a b : Vec3) : Vec3 :=
  ⟨a.y * b.z - a.z * b.y, a.z * b.x - a.x * b.z, a.x * b.y - a.y * b.x⟩

/-- Integer scaling. -/
def Vec3.smul (k : ℤ) (a : Vec3) : Vec3 :=
  ⟨k * a.x, k * a.y, k * a.z⟩

/-- View an integer vector rationally. -/
def Vec3.toQ (a : Vec3) : QVec3 :=
  ⟨a.x, a.y, a.z⟩

/-- Componentwise sum. -/
instance : Add QVec3 :=
  ⟨fun a b => ⟨a.x + b.x, a.y + b.y, a.z + b.z⟩⟩

/-- Rational scaling. -/
def QVec3.smul (k : ℚ) (a : QVec3) : QVec3 :=
  ⟨k * a.x, k * a.y, k * a.z⟩

/-- The principal unit vector of an axis (the `axisVec` builder). -/
def axisUnit (a : Axis) : Vec3 :=
  match a with
  | .x => ⟨1, 0, 0⟩
  | .y => ⟨0, 1, 0⟩
  | .z => ⟨0, 0, 1⟩

/-- The `moveDefs` table of the `ArrowIndicators` component used by
`RubiksCube` (the variant taking a `clickedFaceNormal` prop): axis of each
base letter. -/
def arrowDefAxis : Move → Axis
  | .R | .RP | .L | .LP => .x
  | .U | .UP | .D | .DP => .y
  | .F | .FP | .B | .BP => .z

/-- The `moveDefs` table: `dir` of each base letter (R/U/F ↦ −1,
L/D/B ↦ 1). -/
def arrowDefDir : Move → ℤ
  | .R | .RP => -1
  | .L | .LP => 1
  | .U | .UP => -1
  | .D | .DP => 1
  | .F | .FP => -1
  | .B | .BP => 1

/-- One directional affordance produced by `generateArrow`.  `pos` is the
exact rational part of the placement: for a center cue the full `ringPos`;
for an edge/corner cue the cubie position pushed out along the normal (the
final `+ 0.4 · normalize(displacement)` display offset is irrational for
diagonal displacements and is not needed by any claim).  `dir` is the cue's
direction: for a center cue exactly the source's normalized tangent (the
tangent before normalization is `0.35 · effectiveDir · (axisVec × up)`,
whose nonzero values have length `0.35`, so normalizing just removes the
scale); for an edge cue the unnormalized displacement, which the renderer's
`ArrowMesh` normalizes anyway. -/
structure Cue where
  label : Move
  isCenter : Bool
  pos : QVec3
  dir : QVec3
deriving DecidableEq, Repr

/-- `generateArrow` of the live `ArrowIndicators`: given the selected
cubie's logical position `p` and the snapped clicked-face normal `n`, decide
whether move `m` yields a cue and where.  The float comparisons are rendered
exactly over `ℤ`: `lengthSq() < 0.1` as `10·‖d‖² < 1`,
`|axisVec·n| > 0.9` as `9 < 10·|axisVec·n|`, and the in-plane test
`|normalize(d)·n| > 0.1` as `100·(d·n)² > ‖d‖²` (squaring both sides of
`10·|d·n| > ‖d‖`). -/
def generateArrow (p n : Vec3) (m : Move) : Option Cue :=
  let axis := arrowDefAxis m.base
  let effectiveDir := if m.isPrime then -(arrowDefDir m.base) else arrowDefDir m.base
  let isAffected :=
    (m.base = .R ∧ p.x = 1) ∨ (m.base = .L ∧ p.x = -1) ∨
    (m.base = .U ∧ p.y = 1) ∨ (m.base = .D ∧ p.y = -1) ∨
    (m.base = .F ∧ p.z = 1) ∨ (m.base = .B ∧ p.z = -1)
  if ¬ isAffected then none
  else
    let nextPos := rotatePos axis effectiveDir p
    let displacement := nextPos - p
    if 10 * displacement.normSq < 1 then
      -- Case A: center piece rotating in place.
      let axisVec := axisUnit axis
      if 9 < 10 * (axisVec.dot n).natAbs then
        let up : Vec3 := if 9 < 10 * n.y.natAbs then ⟨0, 0, -1⟩ else ⟨0, 1, 0⟩
        let tangent := Vec3.smul effectiveDir (axisVec.cross up)
        let ringPos :=
          p.toQ + QVec3.smul (35 / 100) up.toQ + QVec3.smul (6 / 10) n.toQ
        some { label := m, isCenter := true, pos := ringPos, dir := tangent.toQ }
      else none
    else
      -- Case B: edge/corner translation; keep only in-plane sliding.
      if 100 * ((displacement.dot n) * (displacement.dot n)) > displacement.normSq then none
      else
        some
          { label := m
            isCenter := false
            pos := p.toQ + QVec3.smul (6 / 10) n.toQ
            dir := displacement.toQ }

/-- The 12 moves in the iteration order of the component's final `forEach`. -/
def arrowMoves : List Move :=
  [.R, .RP, .L, .LP, .U, .UP, .D, .DP, .F, .FP, .B, .BP]

/-- Every cue the component renders for a selected cubie at `p` with snapped
clicked normal `n`, in render order. -/
def cueList (p n : Vec3) : List Cue :=
  arrowMoves.filterMap (generateArrow p n)

/-- A concrete active cubie for the C9 witness: the piece created at
position `(1, -1, -1)` (id 18 in generation order). -/
def w9cubie : CubieData :=
  { id := 18, position := ⟨1, -1, -1⟩, rotation := Mat3.one, initialPosition := ⟨1, -1, -1⟩ }

/-- The six center-piece positions (exactly one non-zero coordinate). -/
def centers : List Vec3 :=
  [⟨1, 0, 0⟩, ⟨-1, 0, 0⟩, ⟨0, 1, 0⟩, ⟨0, -1, 0⟩, ⟨0, 0, 1⟩, ⟨0, 0, -1⟩]

/-- The six signed principal-axis unit vectors. -/
def sixUnits : List QVec3 :=
  [⟨1, 0, 0⟩, ⟨-1, 0, 0⟩, ⟨0, 1, 0⟩, ⟨0, -1, 0⟩, ⟨0, 0, 1⟩, ⟨0, 0, -1⟩]

/-- One component of the vector strictly dominates the other two in
absolute value. -/
def hasUniqueMax (n : QVec3) : Prop :=
  (qabs n.y < qabs n.x ∧ qabs n.z < qabs n.x) ∨
  (qabs n.x < qabs n.y ∧ qabs n.z < qabs n.y) ∨
  (qabs n.x < qabs n.z ∧ qabs n.y < qabs n.z)

instance (n : QVec3) : Decidable (hasUniqueMax n) := by
  unfold hasUniqueMax
  exact inferInstance

/-- An in-flight `R` move one frame short of the quarter-turn target
(progress `1.5` rad, scaled by 10¹⁶), for the C5 witness. -/
def c5Active : ActiveMove :=
  { mtype := .R
    axis := .x
    layer := 1
    direction := -1
    progress := 15000000000000000
    activeCubieIds := getCubiesInLayer .x 1 generateSolvedCube }

/-- A scheduler state about to commit `R` with `U` still queued. -/
def c5State : RubiksState :=
  { cubies := generateSolvedCube
    animationQueue := [.U]
    currentMove := some c5Active
    isAnimating := true
    selectedCubieId := none
    clickedFaceNormal := none }

/-- The initial state after enqueueing `R` then `U` (the C5 counterexample
run). -/
def c5start : RubiksState :=
  triggerRotate .U (triggerRotate .R initialState)

/-! ## Algebraic facts about the rotation engine -/

theorem Mat3.mul_assoc (m n k : Mat3) : (m.mul n).mul k = m.mul (n.mul k) := by
  ext <;> simp [Mat3.mul] <;> ring

theorem Mat3.one_mul (m : Mat3) : Mat3.one.mul m = m := by
  ext <;> simp [Mat3.mul, Mat3.one]

/-- Sanity: the closed-form quarter-turn maps are the matrix rotations. -/
theorem rotMat_mulVec (a : Axis) (d : ℤ) (p : Vec3) :
    (rotMat a d).mulVec p = rotatePos a d p := by
  cases a <;> (ext <;> simp [rotMat, Mat3.mulVec, rotatePos, rotXq, rotYq, rotZq] <;> ring)


theorem moveAxis_prime (m : Move) : moveAxis m.prime = moveAxis m := by
  cases m <;> rfl

theorem moveLayer_prime (m : Move) : moveLayer m.prime = moveLayer m := by
  cases m <;> rfl

theorem moveDirection_prime (m : Move) : moveDirection m.prime = -moveDirection m := by
  cases m <;> rfl

theorem moveDirection_sq (m : Move) : moveDirection m * moveDirection m = 1 := by
  cases m <;> rfl

theorem unit_of_sq_one {d : ℤ} (hd : d * d = 1) : d = 1 ∨ d = -1 :=
  Int.isUnit_iff.mp (isUnit_of_mul_eq_one d d hd)

/-- Rotating about an axis preserves the coordinate along that axis. -/
theorem axisCoord_rotatePos (a : Axis) (d : ℤ) (p : Vec3) :
    axisCoord a (rotatePos a d p) = axisCoord a p := by
  cases a <;> rfl

/-- Four successive signed quarter turns about one axis are the identity. -/
theorem rotatePos_four (a : Axis) {d : ℤ} (hd : d * d = 1) (p : Vec3) :
    rotatePos a d (rotatePos a d (rotatePos a d (rotatePos a d p))) = p := by
  rcases unit_of_sq_one hd with rfl | rfl <;>
    cases a <;> (ext <;> simp [rotatePos, rotXq, rotYq, rotZq])

/-- A signed quarter turn followed by its reverse is the identity. -/
theorem rotatePos_inv (a : Axis) {d : ℤ} (hd : d * d = 1) (p : Vec3) :
    rotatePos a (-d) (rotatePos a d p) = p := by
  rcases unit_of_sq_one hd with rfl | rfl <;>
    cases a <;> (ext <;> simp [rotatePos, rotXq, rotYq, rotZq])

/-- The fourth power of a signed quarter-turn rotation matrix is the
identity. -/
theorem rotMat_four (a : Axis) {d : ℤ} (hd : d * d = 1) :
    (((rotMat a d).mul (rotMat a d)).mul (rotMat a d)).mul (rotMat a d) = Mat3.one := by
  rcases unit_of_sq_one hd with rfl | rfl <;> cases a <;> decide

/-- A signed quarter-turn rotation matrix times its reverse is the
identity. -/
theorem rotMat_neg_mul (a : Axis) {d : ℤ} (hd : d * d = 1) :
    (rotMat a (-d)).mul (rotMat a d) = Mat3.one := by
  rcases unit_of_sq_one hd with rfl | rfl <;> cases a <;> decide

/-- Premultiplying a quarter-turn rotation four times is the identity on
orientations. -/
theorem rotMat_four_mul (a : Axis) {d : ℤ} (hd : d * d = 1) (M : Mat3) :
    (rotMat a d).mul ((rotMat a d).mul ((rotMat a d).mul ((rotMat a d).mul M))) = M := by
  rw [← Mat3.mul_assoc, ← Mat3.mul_assoc, ← Mat3.mul_assoc, rotMat_four a hd, Mat3.one_mul]

/-- Premultiplying a quarter turn and then its reverse is the identity on
orientations. -/
theorem rotMat_inv_mul (a : Axis) {d : ℤ} (hd : d * d = 1) (M : Mat3) :
    (rotMat a (-d)).mul ((rotMat a d).mul M) = M := by
  rw [← Mat3.mul_assoc, rotMat_neg_mul a hd, Mat3.one_mul]

theorem commitCubie_id (a : Axis) (d : ℤ) (A : List ℕ) (c : CubieData) :
    (commitCubie a d A c).id = c.id := by
  unfold commitCubie
  split <;> rfl

theorem commitCubie_initialPosition (a : Axis) (d : ℤ) (A : List ℕ) (c : CubieData) :
    (commitCubie a d A c).initialPosition = c.initialPosition := by
  unfold commitCubie
  split <;> rfl

theorem commitCubie_position_mem (a : Axis) (d : ℤ) (A : List ℕ) (c : CubieData)
    (h : c.id ∈ A) :
    (commitCubie a d A c).position = rotatePos a d c.position := by
  unfold commitCubie
  rw [if_pos h]

theorem commitCubie_rotation_mem (a : Axis) (d : ℤ) (A : List ℕ) (c : CubieData)
    (h : c.id ∈ A) :
    (commitCubie a d A c).rotation = (rotMat a d).mul c.rotation := by
  unfold commitCubie
  rw [if_pos h]

theorem commitCubie_not_mem (a : Axis) (d : ℤ) (A : List ℕ) (c : CubieData)
    (h : c.id ∉ A) :
    commitCubie a d A c = c := by
  unfold commitCubie
  rw [if_neg h]

theorem commitCubie_axisCoord (a : Axis) (d : ℤ) (A : List ℕ) (c : CubieData) :
    axisCoord a (commitCubie a d A c).position = axisCoord a c.position := by
  unfold commitCubie
  split
  · exact axisCoord_rotatePos a d c.position
  · rfl

/-- Applying the same move four times to one cubie is the identity. -/
theorem commitCubie_four (a : Axis) {d : ℤ} (hd : d * d = 1) (A : List ℕ) (c : CubieData) :
    commitCubie a d A (commitCubie a d A (commitCubie a d A (commitCubie a d A c))) = c := by
  by_cases h : c.id ∈ A
  · have m1 : (commitCubie a d A c).id ∈ A := by
      rw [commitCubie_id]
      exact h
    have m2 : (commitCubie a d A (commitCubie a d A c)).id ∈ A := by
      rw [commitCubie_id, commitCubie_id]
      exact h
    have m3 :
        (commitCubie a d A (commitCubie a d A (commitCubie a d A c))).id ∈ A := by
      rw [commitCubie_id, commitCubie_id, commitCubie_id]
      exact h
    apply CubieData.ext
    · rw [commitCubie_id, commitCubie_id, commitCubie_id, commitCubie_id]
    · rw [commitCubie_position_mem a d A _ m3, commitCubie_position_mem a d A _ m2,
        commitCubie_position_mem a d A _ m1, commitCubie_position_mem a d A _ h]
      exact rotatePos_four a hd c.position
    · rw [commitCubie_rotation_mem a d A _ m3, commitCubie_rotation_mem a d A _ m2,
        commitCubie_rotation_mem a d A _ m1, commitCubie_rotation_mem a d A _ h]
      exact rotMat_four_mul a hd c.rotation
    · rw [commitCubie_initialPosition, commitCubie_initialPosition,
        commitCubie_initialPosition, commitCubie_initialPosition]
  · rw [commitCubie_not_mem a d A c h, commitCubie_not_mem a d A c h,
      commitCubie_not_mem a d A c h, commitCubie_not_mem a d A c h]

/-- Applying a move and then its reverse to one cubie is the identity. -/
theorem commitCubie_inv (a : Axis) {d : ℤ} (hd : d * d = 1) (A : List ℕ) (c : CubieData) :
    commitCubie a (-d) A (commitCubie a d A c) = c := by
  by_cases h : c.id ∈ A
  · have m1 : (commitCubie a d A c).id ∈ A := by
      rw [commitCubie_id]
      exact h
    apply CubieData.ext
    · rw [commitCubie_id, commitCubie_id]
    · rw [commitCubie_position_mem a (-d) A _ m1, commitCubie_position_mem a d A _ h]
      exact rotatePos_inv a hd c.position
    · rw [commitCubie_rotation_mem a (-d) A _ m1, commitCubie_rotation_mem a d A _ h]
      exact rotMat_inv_mul a hd c.rotation
    · rw [commitCubie_initialPosition, commitCubie_initialPosition]
  · rw [commitCubie_not_mem a d A c h, commitCubie_not_mem a (-d) A c h]

/-- Committing a move does not change which ids lie in a layer of its own
axis: the rotation preserves that coordinate for every cubie. -/
theorem getCubiesInLayer_commitMove (a : Axis) (d : ℤ) (layer : ℤ) (A : List ℕ)
    (s : List CubieData) :
    getCubiesInLayer a layer (commitMove a d A s) = getCubiesInLayer a layer s := by
  unfold getCubiesInLayer commitMove
  rw [List.filter_map, List.map_map]
  have hp : ((fun c => axisCoord a c.position == layer) ∘ commitCubie a d A) =
      fun c => axisCoord a c.position == layer := by
    funext c
    simp [Function.comp, commitCubie_axisCoord]
  have hf : ((fun c : CubieData => c.id) ∘ commitCubie a d A) =
      fun c : CubieData => c.id := by
    funext c
    simp [Function.comp, commitCubie_id]
  rw [hp, hf]

theorem commitMove_cancel_four (a : Axis) {d : ℤ} (hd : d * d = 1) (A : List ℕ)
    (s : List CubieData) :
    commitMove a d A (commitMove a d A (commitMove a d A (commitMove a d A s))) = s := by
  unfold commitMove
  rw [List.map_map, List.map_map, List.map_map]
  have :
      (((commitCubie a d A ∘ commitCubie a d A) ∘ commitCubie a d A) ∘ commitCubie a d A) =
        id := by
    funext c
    exact commitCubie_four a hd A c
  rw [this, List.map_id]

theorem commitMove_cancel_inv (a : Axis) {d : ℤ} (hd : d * d = 1) (A : List ℕ)
    (s : List CubieData) :
    commitMove a (-d) A (commitMove a d A s) = s := by
  unfold commitMove
  rw [List.map_map]
  have : (commitCubie a (-d) A ∘ commitCubie a d A) = id := by
    funext c
    exact commitCubie_inv a hd A c
  rw [this, List.map_id]

/-- The effect of a committed move on a cubie's position as a function of
the position alone: rotate exactly the positions lying in the move's layer.
On a state with no duplicate ids this describes `commitCubie` (whose guard
is id membership in the captured layer snapshot). -/
def posStep (m : Move) (p : Vec3) : Vec3 :=
  if axisCoord (moveAxis m) p == moveLayer m then
    rotatePos (moveAxis m) (moveDirection m) p
  else p

/-- On a state with no duplicate ids, an id captured by `getCubiesInLayer`
belongs to a cubie exactly when that cubie's coordinate matches the layer. -/
theorem mem_getCubiesInLayer (a : Axis) (L : ℤ) (s : List CubieData)
    (hnd : (s.map (fun c => c.id)).Nodup) (c : CubieData) (hc : c ∈ s) :
    c.id ∈ getCubiesInLayer a L s ↔ axisCoord a c.position = L := by
  unfold getCubiesInLayer
  constructor
  · intro h
    rcases List.mem_map.mp h with ⟨c', hc', hid⟩
    rcases List.mem_filter.mp hc' with ⟨hcs, hp⟩
    have hcc : c' = c := List.inj_on_of_nodup_map hnd hcs hc hid
    subst hcc
    simpa using hp
  · intro h
    refine List.mem_map.mpr ⟨c, List.mem_filter.mpr ⟨hc, ?_⟩, rfl⟩
    simp [h]

/-- Committing a move never changes the id of any cubie. -/
theorem applyMove_ids (m : Move) (s : List CubieData) :
    (applyMove m s).map (fun c => c.id) = s.map (fun c => c.id) := by
  unfold applyMove commitMove
  rw [List.map_map]
  have h : ((fun c : CubieData => c.id) ∘
      commitCubie (moveAxis m) (moveDirection m)
        (getCubiesInLayer (moveAxis m) (moveLayer m) s)) =
      fun c : CubieData => c.id := by
    funext c
    exact commitCubie_id _ _ _ c
  rw [h]

/-- On a state with no duplicate ids, the positions after a committed move
are the `posStep` images of the positions before it. -/
theorem applyMove_positions (m : Move) (s : List CubieData)
    (hnd : (s.map (fun c => c.id)).Nodup) :
    (applyMove m s).map (fun c => c.position) = s.map (fun c => posStep m c.position) := by
  unfold applyMove commitMove
  rw [List.map_map]
  refine List.map_congr_left ?_
  intro c hc
  show (commitCubie (moveAxis m) (moveDirection m)
      (getCubiesInLayer (moveAxis m) (moveLayer m) s) c).position = posStep m c.position
  by_cases h : axisCoord (moveAxis m) c.position = moveLayer m
  · have hmem : c.id ∈ getCubiesInLayer (moveAxis m) (moveLayer m) s :=
      (mem_getCubiesInLayer (moveAxis m) (moveLayer m) s hnd c hc).mpr h
    rw [commitCubie_position_mem _ _ _ _ hmem]
    unfold posStep
    rw [if_pos (by simp [h])]
  · have hmem : c.id ∉ getCubiesInLayer (moveAxis m) (moveLayer m) s := fun hx =>
      h ((mem_getCubiesInLayer (moveAxis m) (moveLayer m) s hnd c hc).mp hx)
    rw [commitCubie_not_mem _ _ _ _ hmem]
    unfold posStep
    rw [if_neg (by simp [h])]

/-- Each move's `posStep` permutes the 27 cells. -/
theorem posStep_perm (m : Move) :
    (↑(allPositions.map (posStep m)) : Multiset Vec3) = (↑allPositions : Multiset Vec3) := by
  cases m <;> decide

/-- Invariant of the committed model: distinct ids, and positions covering
the 27 cells exactly, are both preserved by every committed move. -/
theorem applyMoves_invariant (ms : List Move) :
    ∀ s : List CubieData,
      (s.map (fun c => c.id)).Nodup →
      (↑(s.map (fun c => c.position)) : Multiset Vec3) = (↑allPositions : Multiset Vec3) →
      ((applyMoves ms s).map (fun c => c.id)).Nodup ∧
        (↑((applyMoves ms s).map (fun c => c.position)) : Multiset Vec3) =
          (↑allPositions : Multiset Vec3) := by
  induction ms with
  | nil =>
    intro s h1 h2
    exact ⟨h1, h2⟩
  | cons m tl ih =>
    intro s h1 h2
    have hstep1 : ((applyMove m s).map (fun c => c.id)).Nodup := by
      rw [applyMove_ids]
      exact h1
    have hstep2 :
        (↑((applyMove m s).map (fun c => c.position)) : Multiset Vec3) =
          (↑allPositions : Multiset Vec3) := by
      rw [applyMove_positions m s h1]
      have hmm : s.map (fun c => posStep m c.position) =
          (s.map (fun c => c.position)).map (posStep m) := by
        rw [List.map_map]
        rfl
      rw [hmm]
      have hcoe : (↑((s.map (fun c => c.position)).map (posStep m)) : Multiset Vec3) =
          Multiset.map (posStep m) ↑(s.map (fun c => c.position)) := rfl
      rw [hcoe, h2]
      exact posStep_perm m
    exact ih (applyMove m s) hstep1 hstep2

/-- C1: after any sequence of committed moves starting from the solved cube,
the multiset of the 27 pieces' logical positions is exactly the 27 integer
triples in `{-1,0,1}³` — no duplicate positions, no out-of-range
components. -/
theorem committed_positions_are_all_cells (ms : List Move) :
    (↑((applyMoves ms generateSolvedCube).map (fun c => c.position)) : Multiset Vec3) =
      (↑allPositions : Multiset Vec3) :=
  (applyMoves_invariant ms generateSolvedCube (by decide) (by decide)).2

/-- C2: committing any move of the 12-symbol alphabet four times in
succession returns every piece of any cube state (in particular any
reachable one) to its original logical position and orientation. -/
theorem move_four_times_identity (m : Move) (s : List CubieData) :
    applyMove m (applyMove m (applyMove m (applyMove m s))) = s := by
  have hd := moveDirection_sq m
  set a := moveAxis m with ha
  set L := moveLayer m with hL
  set d := moveDirection m with hdd
  set A := getCubiesInLayer a L s with hA
  have g1 : getCubiesInLayer a L (commitMove a d A s) = A :=
    (getCubiesInLayer_commitMove a d L A s).trans hA.symm
  have g2 : getCubiesInLayer a L (commitMove a d A (commitMove a d A s)) = A :=
    (getCubiesInLayer_commitMove a d L A _).trans g1
  have g3 :
      getCubiesInLayer a L
        (commitMove a d A (commitMove a d A (commitMove a d A s))) = A :=
    (getCubiesInLayer_commitMove a d L A _).trans g2
  have e1 : applyMove m s = commitMove a d A s := rfl
  have e2 : applyMove m (commitMove a d A s) = commitMove a d A (commitMove a d A s) := by
    show commitMove a d (getCubiesInLayer a L (commitMove a d A s)) (commitMove a d A s) = _
    rw [g1]
  have e3 :
      applyMove m (commitMove a d A (commitMove a d A s)) =
        commitMove a d A (commitMove a d A (commitMove a d A s)) := by
    show commitMove a d
        (getCubiesInLayer a L (commitMove a d A (commitMove a d A s)))
        (commitMove a d A (commitMove a d A s)) = _
    rw [g2]
  have e4 :
      applyMove m (commitMove a d A (commitMove a d A (commitMove a d A s))) =
        commitMove a d A
          (commitMove a d A (commitMove a d A (commitMove a d A s))) := by
    show commitMove a d
        (getCubiesInLayer a L
          (commitMove a d A (commitMove a d A (commitMove a d A s))))
        (commitMove a d A (commitMove a d A (commitMove a d A s))) = _
    rw [g3]
  rw [e1, e2, e3, e4]
  exact commitMove_cancel_four a hd A s

/-- C3: committing any move of the 12-symbol alphabet and then its primed
counterpart returns every piece of any cube state (in particular any
reachable one) to its original logical position and orientation. -/
theorem move_then_prime_identity (m : Move) (s : List CubieData) :
    applyMove m.prime (applyMove m s) = s := by
  have hd := moveDirection_sq m
  set a := moveAxis m with ha
  set L := moveLayer m with hL
  set d := moveDirection m with hdd
  set A := getCubiesInLayer a L s with hA
  have g1 : getCubiesInLayer a L (commitMove a d A s) = A :=
    (getCubiesInLayer_commitMove a d L A s).trans hA.symm
  have e1 : applyMove m s = commitMove a d A s := rfl
  have e2 : applyMove m.prime (commitMove a d A s) =
      commitMove a (-d) A (commitMove a d A s) := by
    show commitMove (moveAxis m.prime) (moveDirection m.prime)
        (getCubiesInLayer (moveAxis m.prime) (moveLayer m.prime) (commitMove a d A s))
        (commitMove a d A s) = _
    rw [moveAxis_prime, moveLayer_prime, moveDirection_prime, ← ha, ← hL, ← hdd, g1]
  rw [e1, e2]
  exact commitMove_cancel_inv a hd A s

/-- C9: when a move is committed, each active piece's new orientation is the
move's quarter-turn rotation composed on the left (premultiplied) with the
piece's previous orientation, and its new position is the corresponding
quarter turn of its old position. -/
theorem commit_premultiplies_orientation (m : Move) (s : List CubieData) (c : CubieData)
    (hc : c ∈ s) (hact : c.id ∈ getCubiesInLayer (moveAxis m) (moveLayer m) s) :
    ∃ c' ∈ applyMove m s, c'.id = c.id ∧
      c'.position = rotatePos (moveAxis m) (moveDirection m) c.position ∧
      c'.rotation = (moveRot m).mul c.rotation := by
  refine ⟨commitCubie (moveAxis m) (moveDirection m)
      (getCubiesInLayer (moveAxis m) (moveLayer m) s) c, ?_, ?_, ?_, ?_⟩
  · exact List.mem_map_of_mem _ hc
  · exact commitCubie_id _ _ _ _
  · exact commitCubie_position_mem _ _ _ _ hact
  · exact commitCubie_rotation_mem _ _ _ _ hact

/-- Witness for C9 at the solved cube and move `R`. -/
theorem commit_premultiplies_orientation_witness :
    w9cubie ∈ generateSolvedCube ∧
    w9cubie.id ∈ getCubiesInLayer (moveAxis .R) (moveLayer .R) generateSolvedCube ∧
    ∃ c' ∈ applyMove .R generateSolvedCube, c'.id = w9cubie.id ∧
      c'.position = rotatePos (moveAxis .R) (moveDirection .R) w9cubie.position ∧
      c'.rotation = (moveRot .R).mul w9cubie.rotation :=
  ⟨by decide, by decide,
    commit_premultiplies_orientation .R generateSolvedCube w9cubie (by decide) (by decide)⟩

/-! ## Scheduler: reset and the commit tick -/

/-- C4: a `reset()` request, issued in any scheduler state — including
mid-animation with a non-empty queue — leaves the cube state equal to the
freshly generated solved state, the move queue empty and no in-flight move,
with no partial application of the interrupted move. -/
theorem reset_unconditional (s : RubiksState) :
    (resetCube s).cubies = generateSolvedCube ∧
      (resetCube s).animationQueue = [] ∧
      (resetCube s).currentMove = none ∧
      (resetCube s).isAnimating = false :=
  ⟨rfl, rfl, rfl, rfl⟩

/-- The spec's scenario: enqueue `[R, U, R']` from solved, interrupt
mid-animation (after 5 ticks the first move is still in flight) with a
reset — the state is exactly the fresh initial state: solved cube, empty
queue, nothing in flight. -/
example :
    resetCube (tick^[5] (triggerRotate .RP (triggerRotate .U (triggerRotate .R initialState)))) =
      initialState :=
  rfl

/-- C5 (amended): on the tick in which the active move's progress reaches or
exceeds the quarter-turn target, the scheduler commits the move with the
exact signed quarter turn (independent of the possibly-overshot progress
value), clears the active move and lowers `isAnimating`; the queue is left
untouched on that tick, so a queued next move begins only on the following
tick. -/
theorem commit_tick_exact (s : RubiksState) (cm : ActiveMove)
    (hanim : s.isAnimating = true) (hcm : s.currentMove = some cm)
    (hdone : TOTAL_ROTATION ≤ cm.progress +
      (if 5 < s.animationQueue.length then ANIMATION_SPEED * 4 else ANIMATION_SPEED)) :
    (tick s).cubies = commitMove cm.axis cm.direction cm.activeCubieIds s.cubies ∧
      (tick s).currentMove = none ∧
      (tick s).isAnimating = false ∧
      (tick s).animationQueue = s.animationQueue := by
  have h1 : tickStart s = s := by
    unfold tickStart
    rw [if_neg]
    intro hco
    rw [hanim] at hco
    exact absurd hco.1 (by simp)
  have h2 : tickAdvance s = advanceMove s := by
    unfold tickAdvance
    rw [if_pos ⟨hanim, by rw [hcm]; rfl⟩]
  unfold tick
  rw [h1, h2]
  simp only [advanceMove, hcm]
  rw [if_pos hdone]
  exact ⟨rfl, rfl, rfl, rfl⟩

/-- Witness for the amended C5 at a concrete pre-commit state. -/
theorem commit_tick_exact_witness :
    c5State.isAnimating = true ∧ c5State.currentMove = some c5Active ∧
      TOTAL_ROTATION ≤ c5Active.progress +
        (if 5 < c5State.animationQueue.length then ANIMATION_SPEED * 4
         else ANIMATION_SPEED) ∧
      ((tick c5State).cubies =
          commitMove c5Active.axis c5Active.direction c5Active.activeCubieIds
            c5State.cubies ∧
        (tick c5State).currentMove = none ∧
        (tick c5State).isAnimating = false ∧
        (tick c5State).animationQueue = c5State.animationQueue) :=
  ⟨rfl, rfl, by decide, commit_tick_exact c5State c5Active rfl rfl (by decide)⟩

/-- C5 counterexample: starting solved with queue `[R, U]`, the 10th tick is
still animating and the 11th tick commits `R` (the cube state becomes
`applyMove R solved`), yet on that same 11th tick the queue still holds `U`
and no move is in flight — the next queued move does not begin on the commit
tick. -/
theorem commit_tick_does_not_start_next :
    (tick^[10] c5start).isAnimating = true ∧
      (tick^[11] c5start).isAnimating = false ∧
      (tick^[11] c5start).cubies = applyMove .R generateSolvedCube ∧
      (tick^[11] c5start).animationQueue = [Move.U] ∧
      (tick^[11] c5start).currentMove = none := by
  decide

/-! ## Selection resolver and affordance generator -/

/-- C6 counterexample: for the center piece at `(1,0,0)` with snapped
clicked normal `(1,0,0)`, the affordance generator used by `RubiksCube`
renders a directional cue for the primed variant `R'` as well — the cue
labels are exactly `[R, R']` — contradicting the claim that the primed
variant produces no cue. -/
theorem center_prime_cue_exists :
    (cueList ⟨1, 0, 0⟩ ⟨1, 0, 0⟩).map Cue.label = [Move.R, Move.RP] ∧
      ∃ c ∈ cueList ⟨1, 0, 0⟩ ⟨1, 0, 0⟩, c.label = Move.RP ∧ c.isCenter = true := by
  decide

/-- C6 (amended): in the center-piece case (zero displacement, rotation axis
aligned with the clicked normal), both the clockwise variant and its primed
counterpart produce one directional cue each. -/
theorem center_both_variants (p : Vec3) (hp : p ∈ centers) :
    ∃ m ∈ arrowMoves, m.isPrime = false ∧
      (cueList p p).map Cue.label = [m, m.prime] := by
  fin_cases hp <;> decide

/-- Witness for the amended C6 at the center `(1,0,0)`. -/
theorem center_both_variants_witness :
    (⟨1, 0, 0⟩ : Vec3) ∈ centers ∧
      ∃ m ∈ arrowMoves, m.isPrime = false ∧
        (cueList ⟨1, 0, 0⟩ ⟨1, 0, 0⟩).map Cue.label = [m, m.prime] :=
  ⟨by decide, center_both_variants ⟨1, 0, 0⟩ (by decide)⟩

theorem qmax_eq_left {a b : ℚ} (h : b ≤ a) : qmax a b = a := by
  unfold qmax
  by_cases hab : a ≤ b
  · rw [if_pos hab]
    exact le_antisymm h hab
  · rw [if_neg hab]

theorem qmax_eq_right {a b : ℚ} (h : a ≤ b) : qmax a b = b := by
  unfold qmax
  rw [if_pos h]

theorem qabs_nonneg (q : ℚ) : 0 ≤ qabs q := by
  unfold qabs
  split
  · linarith
  · linarith

theorem qabs_zero : qabs 0 = 0 := by
  unfold qabs
  norm_num

theorem qabs_smul {k : ℚ} (hk : 0 < k) (q : ℚ) : qabs (k * q) = k * qabs q := by
  unfold qabs
  rcases lt_trichotomy q 0 with h | h | h
  · rw [if_pos (mul_neg_of_pos_of_neg hk h), if_pos h]
    ring
  · subst h
    simp
  · rw [if_neg (not_lt.mpr (mul_pos hk h).le), if_neg (not_lt.mpr h.le)]

theorem qmax_smul {k : ℚ} (hk : 0 < k) (a b : ℚ) : qmax (k * a) (k * b) = k * qmax a b := by
  unfold qmax
  by_cases hab : a ≤ b
  · rw [if_pos hab, if_pos (mul_le_mul_of_nonneg_left hab hk.le)]
  · rw [if_neg hab, if_neg fun hc => hab (le_of_mul_le_mul_left hc hk)]

theorem qsign_smul {k : ℚ} (hk : 0 < k) (q : ℚ) : qsign (k * q) = qsign q := by
  unfold qsign
  rcases lt_trichotomy q 0 with h | h | h
  · rw [if_neg (asymm (mul_neg_of_pos_of_neg hk h)), if_pos (mul_neg_of_pos_of_neg hk h),
      if_neg (asymm h), if_pos h]
  · subst h
    simp
  · rw [if_pos (mul_pos hk h), if_pos h]

/-- Dropping the source's initial `normalize()` is harmless: the snap is
invariant under scaling the normal by any positive factor (and a unit
normal is the positive scaling of whatever un-normalized vector produced
it). -/
theorem snapNormal_smul {k : ℚ} (hk : 0 < k) (n : QVec3) :
    snapNormal ⟨k * n.x, k * n.y, k * n.z⟩ = snapNormal n := by
  simp only [snapNormal]
  rw [qabs_smul hk, qabs_smul hk, qabs_smul hk, qmax_smul hk, qmax_smul hk,
    qsign_smul hk, qsign_smul hk, qsign_smul hk]
  simp only [mul_right_inj' hk.ne']

/-- C7 counterexample: the snapped normal of `(1,1,0)` (two components tied
for the maximum absolute value) keeps both tied components, so the result is
not one of the six signed principal-axis unit vectors. -/
theorem snapNormal_tie_not_principal :
    snapNormal ⟨1, 1, 0⟩ = ⟨1, 1, 0⟩ ∧ snapNormal ⟨1, 1, 0⟩ ∉ sixUnits := by
  decide

/-- C7 (amended): whenever one component of the clicked-face normal strictly
dominates the other two in absolute value, the snapped normal is that
component's signed principal-axis unit vector; only tie inputs escape the
six signed units. -/
theorem snapNormal_principal (n : QVec3) (h : hasUniqueMax n) :
    snapNormal n ∈ sixUnits := by
  rcases h with ⟨h1, h2⟩ | ⟨h1, h2⟩ | ⟨h1, h2⟩
  · have hmax : qmax (qmax (qabs n.x) (qabs n.y)) (qabs n.z) = qabs n.x := by
      rw [qmax_eq_left h1.le]
      exact qmax_eq_left h2.le
    have hx0 : n.x ≠ 0 := by
      intro h0
      rw [h0, qabs_zero] at h1
      exact absurd h1 (not_lt.mpr (qabs_nonneg n.y))
    simp only [snapNormal]
    rw [hmax, if_pos rfl, if_neg (ne_of_lt h1), if_neg (ne_of_lt h2)]
    rcases lt_or_gt_of_ne hx0 with hneg | hpos
    · have hs : qsign n.x = -1 := by
        unfold qsign
        rw [if_neg (by linarith), if_pos hneg]
      rw [hs]
      decide
    · have hs : qsign n.x = 1 := by
        unfold qsign
        rw [if_pos hpos]
      rw [hs]
      decide
  · have hmax : qmax (qmax (qabs n.x) (qabs n.y)) (qabs n.z) = qabs n.y := by
      rw [qmax_eq_right h1.le]
      exact qmax_eq_left h2.le
    have hy0 : n.y ≠ 0 := by
      intro h0
      rw [h0, qabs_zero] at h1
      exact absurd h1 (not_lt.mpr (qabs_nonneg n.x))
    simp only [snapNormal]
    rw [hmax, if_pos rfl, if_neg (ne_of_lt h1), if_neg (ne_of_lt h2)]
    rcases lt_or_gt_of_ne hy0 with hneg | hpos
    · have hs : qsign n.y = -1 := by
        unfold qsign
        rw [if_neg (by linarith), if_pos hneg]
      rw [hs]
      decide
    · have hs : qsign n.y = 1 := by
        unfold qsign
        rw [if_pos hpos]
      rw [hs]
      decide
  · have hmid : qmax (qabs n.x) (qabs n.y) < qabs n.z := by
      unfold qmax
      split
      · exact h2
      · exact h1
    have hmax : qmax (qmax (qabs n.x) (qabs n.y)) (qabs n.z) = qabs n.z :=
      qmax_eq_right hmid.le
    have hz0 : n.z ≠ 0 := by
      intro h0
      rw [h0, qabs_zero] at h1
      exact absurd h1 (not_lt.mpr (qabs_nonneg n.x))
    simp only [snapNormal]
    rw [hmax, if_pos rfl, if_neg (ne_of_lt h1), if_neg (ne_of_lt h2)]
    rcases lt_or_gt_of_ne hz0 with hneg | hpos
    · have hs : qsign n.z = -1 := by
        unfold qsign
        rw [if_neg (by linarith), if_pos hneg]
      rw [hs]
      decide
    · have hs : qsign n.z = 1 := by
        unfold qsign
        rw [if_pos hpos]
      rw [hs]
      decide

/-- Witness for the amended C7 at the normal `(2, 1, 0)`. -/
theorem snapNormal_principal_witness :
    hasUniqueMax ⟨2, 1, 0⟩ ∧ snapNormal ⟨2, 1, 0⟩ ∈ sixUnits :=
  ⟨by decide, snapNormal_principal ⟨2, 1, 0⟩ (by decide)⟩

/-- C8: the legal move-letter set derived from a click is exactly `{R,U,F}`
for the piece at `(1,1,1)`, `{R,U}` for `(1,1,0)` and `{R}` for `(1,0,0)`
(deduplicated, since the raw list repeats a center's letter). -/
theorem selection_sets_corner_edge_center :
    (validFaces ⟨1, 1, 1⟩).dedup = ["R", "U", "F"] ∧
      (validFaces ⟨1, 1, 0⟩).dedup = ["R", "U"] ∧
      (validFaces ⟨1, 0, 0⟩).dedup = ["R"] := by
  decide

/-- C10: for every center piece, the legal-move list passed to
`onSelectionChange` contains that face's single letter exactly twice — the
general per-coordinate check and the dedicated center-piece check both push
it. -/
theorem center_letter_pushed_twice (p : Vec3) (hp : p ∈ centers) :
    ∃ l ∈ ["R", "L", "U", "D", "F", "B"], validFaces p = [l, l] := by
  fin_cases hp <;> decide

/-- Witness for C10 at the center `(1,0,0)`. -/
theorem center_letter_pushed_twice_witness :
    (⟨1, 0, 0⟩ : Vec3) ∈ centers ∧
      ∃ l ∈ ["R", "L", "U", "D", "F", "B"], validFaces ⟨1, 0, 0⟩ = [l, l] :=
  ⟨by decide, center_letter_pushed_twice ⟨1, 0, 0⟩ (by decide)⟩

end Rubik
